import Mathlib

/-!
# Verification of the hpke-rs HPKE engine against its specification

Shallow embedding of `src/lib.rs` and `src/aead.rs` of the hpke-rs crate.
The primitive provider modules (`kem.rs`, `kdf.rs`, `hkdf.rs`, `aead_impl.rs`,
`util.rs`) are not part of the given sources; where a definition below stands
in for one of them it is modelled from the specification and marked
`Modelled from the spec:` in its doc comment.

Bytes are modelled as `List Nat`; machine integers as `Nat` with explicit
`% 2 ^ w` where the source wraps.
-/

namespace HpkeRs

/-- A byte string.  Individual entries are `Nat`; derivations produced by the
symbolic KDF model may exceed 255, which is harmless because the claims only
compare derivations for equality and feed them back into further derivations. -/
abbrev Bytes := List Nat

/-- `HPKEError` from `src/lib.rs` lines 14-19: the public error enum with
exactly three variants `OpenError`, `InvalidConfig`, `InvalidInput`. -/
inductive HPKEError where
  | openError
  | invalidConfig
  | invalidInput
deriving DecidableEq, Repr

/-- Result of an HPKE operation.  `ok` and `err` mirror Rust `Result`;
`fatal` models a Rust `panic!`, which aborts the process and returns nothing
to the caller (used by `verify_psk_inputs` in the source). -/
inductive HpkeRes (α : Type) where
  | ok (a : α)
  | err (e : HPKEError)
  | fatal (msg : String)
deriving DecidableEq, Repr

/-- `true` iff the result is `ok`. -/
def HpkeRes.isOk {α : Type} : HpkeRes α → Bool
  | .ok _ => true
  | _ => false

/-- `Mode` from `src/lib.rs` lines 42-48: Base, PSK, Auth, AuthPSK. -/
inductive Mode where
  | base
  | psk
  | auth
  | authPsk
deriving DecidableEq, Repr, BEq

/-- Discriminant values of `Mode` (`Base = 0x00` ... `AuthPsk = 0x03`). -/
def Mode.toNat : Mode → Nat
  | .base => 0
  | .psk => 1
  | .auth => 2
  | .authPsk => 3

/-- Length-prefixed encoding of a byte string, used to make the symbolic
primitive models injective: `lenPfx a ++ lenPfx b` determines `(a, b)`. -/
def lenPfx (b : Bytes) : Bytes := b.length :: b

/-- Big-endian 16-bit encoding (`u16::to_be_bytes`). -/
def be16 (n : Nat) : Bytes := [n / 256 % 256, n % 256]

/-- Big-endian 32-bit encoding (`u32::to_be_bytes`). -/
def be32 (n : Nat) : Bytes :=
  [n / 2 ^ 24 % 256, n / 2 ^ 16 % 256, n / 2 ^ 8 % 256, n % 256]

/-- Big-endian 64-bit encoding (`u64::to_be_bytes`), used by the spec's
64-bit nonce formula. -/
def be64 (n : Nat) : Bytes :=
  [n / 2 ^ 56 % 256, n / 2 ^ 48 % 256, n / 2 ^ 40 % 256, n / 2 ^ 32 % 256,
   n / 2 ^ 24 % 256, n / 2 ^ 16 % 256, n / 2 ^ 8 % 256, n % 256]

/-- Modelled from the spec: `util::xor_bytes` (`util.rs` is not among the
sources).  Pointwise XOR of two equal-length byte strings, per §4.6
`nonce_base XOR LeftPad(seq_be, Nn)`. -/
def xor_bytes (a b : Bytes) : Bytes := List.zipWith Nat.xor a b

/-! ## ASCII labels (RFC label strings as byte lists) -/

/-- ASCII bytes of `"HPKE-v1"`. -/
def lblHpkeV1 : Bytes := [72, 80, 75, 69, 45, 118, 49]

/-- ASCII bytes of `"HPKE"` (ciphersuite identifier prefix). -/
def lblHPKE : Bytes := [72, 80, 75, 69]

/-- ASCII bytes of `"KEM"` (KEM-internal suite identifier prefix). -/
def lblKEM : Bytes := [75, 69, 77]

/-- ASCII bytes of `"psk_id_hash"`. -/
def lblPskIdHash : Bytes := [112, 115, 107, 95, 105, 100, 95, 104, 97, 115, 104]

/-- ASCII bytes of `"info_hash"`. -/
def lblInfoHash : Bytes := [105, 110, 102, 111, 95, 104, 97, 115, 104]

/-- ASCII bytes of `"psk_hash"`. -/
def lblPskHash : Bytes := [112, 115, 107, 95, 104, 97, 115, 104]

/-- ASCII bytes of `"secret"`. -/
def lblSecret : Bytes := [115, 101, 99, 114, 101, 116]

/-- ASCII bytes of `"key"`. -/
def lblKey : Bytes := [107, 101, 121]

/-- ASCII bytes of `"nonce"` (the label the source uses for the IV). -/
def lblNonce : Bytes := [110, 111, 110, 99, 101]

/-- ASCII bytes of `"base_nonce"` (the label the spec claims for the IV). -/
def lblBaseNonce : Bytes := [98, 97, 115, 101, 95, 110, 111, 110, 99, 101]

/-- ASCII bytes of `"exp"`. -/
def lblExp : Bytes := [101, 120, 112]

/-- ASCII bytes of `"sec"`. -/
def lblSec : Bytes := [115, 101, 99]

/-- ASCII bytes of `"eae_prk"`. -/
def lblEaePrk : Bytes := [101, 97, 101, 95, 112, 114, 107]

/-- ASCII bytes of `"shared_secret"`. -/
def lblSharedSecret : Bytes :=
  [115, 104, 97, 114, 101, 100, 95, 115, 101, 99, 114, 101, 116]

/-! ## KDF (`kdf.rs` / `hkdf.rs`, modelled from the spec §4.1, §4.4) -/

namespace Kdf

/-- KDF identifiers per spec §6: `0x0001` HKDF-SHA-256, `0x0002` HKDF-SHA-384,
`0x0003` HKDF-SHA-512 (`kdf.rs` is not among the sources). -/
inductive Mode where
  | hkdfSha256
  | hkdfSha384
  | hkdfSha512
deriving DecidableEq, Repr

/-- Registry codepoint of a KDF id. -/
def Mode.toNat : Mode → Nat
  | .hkdfSha256 => 1
  | .hkdfSha384 => 2
  | .hkdfSha512 => 3

/-- `Nh`, the hash output length, per spec §4.4. -/
def Mode.nh : Mode → Nat
  | .hkdfSha256 => 32
  | .hkdfSha384 => 48
  | .hkdfSha512 => 64

/-- Modelled from the spec: the internal block size of the hash underlying
each HKDF (§4.4, glossary: HKDF is "the HMAC-based construction"): SHA-256
uses 64-byte blocks, SHA-384 and SHA-512 128-byte blocks. -/
def Mode.blockSize : Mode → Nat
  | .hkdfSha256 => 64
  | .hkdfSha384 => 128
  | .hkdfSha512 => 128

/-- Modelled from the spec: HMAC key normalization of the Extract salt.  HMAC
zero-pads a key shorter than the hash block size up to the block size — so
two short salts that differ only in trailing zero bytes (in particular `""`
and `[0x00]`) are the same HMAC key — and first hashes a key longer than the
block size (the hash kept symbolic; its result, tagged and length-prefixed,
is longer than a block, so it can never coincide with a padded short key). -/
def hmacKeyBlock (m : Mode) (salt : Bytes) : Bytes :=
  if salt.length ≤ m.blockSize then
    salt ++ List.replicate (m.blockSize - salt.length) 0
  else
    (900 + m.toNat) :: lenPfx salt

/-- Modelled from the spec: HKDF `Extract(salt, ikm) → prk` for the selected
hash (§4.4; `hkdf.rs` is not among the sources).  Modelled symbolically as a
tagged encoding of `(hash, salt, ikm)` that is injective up to HMAC's key
normalization of the salt (`hmacKeyBlock`): salts that HMAC treats as the
same key yield the same PRK, and otherwise distinct derivations yield
distinct byte strings, which is what the claims about the key schedule
compare. -/
def extract (m : Mode) (salt ikm : Bytes) : Bytes :=
  (200 + m.toNat) :: (lenPfx (hmacKeyBlock m salt) ++ lenPfx ikm)

/-- Modelled from the spec: HKDF `Expand(prk, info, L) → bytes[L]` for the
selected hash (§4.4).  Returns exactly `L` entries, each derived from a
keyed accumulator over `(hash, prk, info, L)`. -/
def expand (m : Mode) (prk info : Bytes) (L : Nat) : Bytes :=
  let h := ((300 + m.toNat) :: (lenPfx prk ++ lenPfx info)).foldl
    (fun a b => a * 1000003 + b + 1) (L + 7)
  (List.range L).map (fun i => h + i)

/-- Modelled from the spec §4.1:
`LabeledExtract(salt, suite_id, label, ikm) =
 Extract(salt, "HPKE-v1" || suite_id || label || ikm)`.
Argument order `(salt, suite_id, label, ikm)` matches the source's calls
`self.kdf.labeled_extract(salt, suite_id, label, ikm)`. -/
def labeled_extract (m : Mode) (salt suite_id label ikm : Bytes) : Bytes :=
  extract m salt (lblHpkeV1 ++ suite_id ++ label ++ ikm)

/-- Modelled from the spec §4.1:
`LabeledExpand(prk, suite_id, label, info, L) =
 Expand(prk, be16(L) || "HPKE-v1" || suite_id || label || info, L)`. -/
def labeled_expand (m : Mode) (prk suite_id label info : Bytes) (L : Nat) : Bytes :=
  expand m prk (be16 L ++ lblHpkeV1 ++ suite_id ++ label ++ info) L

end Kdf

/-! ## AEAD (`src/aead.rs`; the algorithm backends of `aead_impl.rs` are
modelled from the spec §4.3, §6) -/

namespace Aead

/-- `aead::Error` from `src/aead.rs` lines 41-56: `OpenError`,
`InvalidConfig`, `InvalidNonce`, `UnknownMode`. -/
inductive Error where
  | openError
  | invalidConfig
  | invalidNonce
  | unknownMode
deriving DecidableEq, Repr

/-- `aead::Mode` from `src/aead.rs` lines 8-21: exactly the three variants
`AesGcm128 = 0x0001`, `AesGcm256 = 0x0002`, `ChaCha20Poly1305 = 0x0003`. -/
inductive Mode where
  | aesGcm128
  | aesGcm256
  | chaCha20Poly1305
deriving DecidableEq, Repr

/-- Registry codepoint of an AEAD id (the `repr(u16)` discriminants). -/
def Mode.toNat : Mode → Nat
  | .aesGcm128 => 1
  | .aesGcm256 => 2
  | .chaCha20Poly1305 => 3

/-- `TryFrom<u16> for aead::Mode` from `src/aead.rs` lines 29-39: accepts
`0x0001`-`0x0003`, everything else is `Error::UnknownMode`. -/
def Mode.tryFrom (x : Nat) : Except Error Mode :=
  if x = 1 then .ok .aesGcm128
  else if x = 2 then .ok .aesGcm256
  else if x = 3 then .ok .chaCha20Poly1305
  else .error .unknownMode

/-- `Nk`, the AEAD key length, per spec §6 (`aead_impl.rs` is not among the
sources): AES-128-GCM 16, AES-256-GCM 32, ChaCha20-Poly1305 32. -/
def Mode.nk : Mode → Nat
  | .aesGcm128 => 16
  | .aesGcm256 => 32
  | .chaCha20Poly1305 => 32

/-- `Nn`, the AEAD nonce length, per spec §6: 12 for all three algorithms. -/
def Mode.nn : Mode → Nat
  | .aesGcm128 => 12
  | .aesGcm256 => 12
  | .chaCha20Poly1305 => 12

/-- Modelled from the spec: the AEAD authentication tag (§4.3, "the AEAD tag
is appended to the ciphertext"; `aead_impl.rs` is not among the sources).
Modelled as a single symbolic entry determined by the algorithm, key, nonce,
associated data and plaintext. -/
def tagOf (m : Mode) (key nonce aad pt : Bytes) : Nat :=
  ((400 + m.toNat) :: (lenPfx key ++ lenPfx nonce ++ lenPfx aad ++ lenPfx pt)).foldl
    (fun a b => a * 1000003 + b + 1) 11

/-- Modelled from the spec §4.3: `seal(key, nonce, aad, pt) → ct` with the tag
(`seal` is a Mathlib command keyword, hence the name `sealB`);
appended; a key of the wrong length is an invalid configuration and a nonce of
the wrong length an invalid nonce (`Error` variants of `src/aead.rs`). -/
def sealB (m : Mode) (key nonce aad pt : Bytes) : Except Error Bytes :=
  if key.length ≠ m.nk then .error .invalidConfig
  else if nonce.length ≠ m.nn then .error .invalidNonce
  else .ok (pt ++ [tagOf m key nonce aad pt])

/-- Modelled from the spec §4.3: `open(key, nonce, aad, ct) → pt | OpenError`;
an `open` that fails authentication returns `OpenError` and no plaintext.
(`open` is a Lean keyword, hence the name `opn`.) -/
def opn (m : Mode) (key nonce aad ct : Bytes) : Except Error Bytes :=
  if key.length ≠ m.nk then .error .invalidConfig
  else if nonce.length ≠ m.nn then .error .invalidNonce
  else
    match ct.getLast? with
    | none => .error .openError
    | some t =>
      let pt := ct.dropLast
      if t = tagOf m key nonce aad pt then .ok pt else .error .openError

end Aead

/-! ## KEM (`kem.rs` / `dh_kem.rs`, modelled from the spec §4.2, §6) -/

namespace Kem

/-- KEM identifiers per spec §6 (`kem.rs` is not among the sources):
`0x0010` P-256, `0x0011` P-384, `0x0012` P-521, `0x0020` X25519,
`0x0021` X448. -/
inductive Mode where
  | dhkemP256
  | dhkemP384
  | dhkemP521
  | dhkemX25519
  | dhkemX448
deriving DecidableEq, Repr

/-- Registry codepoint of a KEM id. -/
def Mode.toNat : Mode → Nat
  | .dhkemP256 => 0x10
  | .dhkemP384 => 0x11
  | .dhkemP521 => 0x12
  | .dhkemX25519 => 0x20
  | .dhkemX448 => 0x21

/-- `Nsecret` per spec §6. -/
def Mode.nsecret : Mode → Nat
  | .dhkemP256 => 32
  | .dhkemP384 => 48
  | .dhkemP521 => 64
  | .dhkemX25519 => 32
  | .dhkemX448 => 64

/-- The hash paired with each DHKEM per spec §6 (HKDF-SHA-256/384/512). -/
def Mode.kdfHash : Mode → Kdf.Mode
  | .dhkemP256 => .hkdfSha256
  | .dhkemP384 => .hkdfSha384
  | .dhkemP521 => .hkdfSha512
  | .dhkemX25519 => .hkdfSha256
  | .dhkemX448 => .hkdfSha512

/-- KEM-internal suite identifier `"KEM" || kem_id_be16` per spec §4.1. -/
def suite_id_kem (m : Mode) : Bytes := lblKEM ++ be16 m.toNat

/-- Modelled from the spec: serialization of the public key of a secret
scalar (§4.2; `dh_kem.rs` is not among the sources).  Modelled as an
injective tagging with a recoverable scalar, so that the idealized DH
below is well defined and computable. -/
def pkOf (sk : Bytes) : Bytes := 4 :: sk

/-- Lexicographic comparison on byte strings, used to make the idealized
DH output symmetric in the two scalars. -/
def leB : Bytes → Bytes → Bool
  | [], _ => true
  | _ :: _, [] => false
  | a :: as, b :: bs => if a < b then true else if b < a then false else leB as bs

/-- Modelled from the spec: the Diffie-Hellman shared point `DH(a, B)` of
scalar `a` and point `B = pkOf b` (§4.2).  Idealized as a canonical symmetric
encoding of the unordered pair of scalars, which gives exactly the
commutativity `DH(a, pkOf b) = DH(b, pkOf a)` the DHKEM correctness argument
depends on. -/
def dh (sk pk : Bytes) : Bytes :=
  let a := sk
  let b := pk.drop 1
  if leB a b then 17 :: (lenPfx a ++ lenPfx b) else 17 :: (lenPfx b ++ lenPfx a)

/-- Modelled from the spec §4.2: `ExtractAndExpand(dh, kem_context)` with the
KEM-internal suite id and labels `"eae_prk"`, `"shared_secret"`. -/
def extract_and_expand (m : Mode) (dhv kem_context : Bytes) : Bytes :=
  let prk := Kdf.labeled_extract m.kdfHash [] (suite_id_kem m) lblEaePrk dhv
  Kdf.labeled_expand m.kdfHash prk (suite_id_kem m) lblSharedSecret kem_context m.nsecret

/-- Modelled from the spec §4.2: `encaps(pk_r) → (shared_secret, enc)`.
The ephemeral scalar `eph` (the randomness the source draws internally) is an
explicit argument.  `kem_context = enc || pk_r`. -/
def encaps (m : Mode) (pk_r eph : Bytes) : Bytes × Bytes :=
  let enc := pkOf eph
  (extract_and_expand m (dh eph pk_r) (enc ++ pk_r), enc)

/-- Modelled from the spec §4.2: `decaps(enc, sk_r) → shared_secret`. -/
def decaps (m : Mode) (enc sk_r : Bytes) : Bytes :=
  extract_and_expand m (dh sk_r enc) (enc ++ pkOf sk_r)

/-- Modelled from the spec §4.2: `auth_encaps(pk_r, sk_s)`, with the DH
outputs ephemeral·receiver then sender·receiver concatenated and
`kem_context = enc || pk_r || pk_s`. -/
def auth_encaps (m : Mode) (pk_r sk_s eph : Bytes) : Bytes × Bytes :=
  let enc := pkOf eph
  (extract_and_expand m (dh eph pk_r ++ dh sk_s pk_r) (enc ++ pk_r ++ pkOf sk_s), enc)

/-- Modelled from the spec §4.2: `auth_decaps(enc, sk_r, pk_s)`. -/
def auth_decaps (m : Mode) (enc sk_r pk_s : Bytes) : Bytes :=
  extract_and_expand m (dh sk_r enc ++ dh sk_r pk_s) (enc ++ pkOf sk_r ++ pk_s)

end Kem

/-! ## The HPKE engine and Context (`src/lib.rs`) -/

/-- `From<aead::Error> for HPKEError`, `src/lib.rs` lines 574-582.  The match
in the source has exactly three arms (`OpenError`, `InvalidNonce`,
`InvalidConfig`); `UnknownMode` has no arm, hence the `Option`. -/
def hpke_error_from_aead : Aead.Error → Option HPKEError
  | .openError => some .openError
  | .invalidNonce => some .invalidConfig
  | .invalidConfig => some .invalidInput
  | .unknownMode => none

/-- Lift an AEAD-layer error through the `?` operator of `seal`/`open`
(`From<aead::Error>`); the `UnknownMode` case has no conversion arm in the
source. -/
def liftAeadErr {α : Type} (e : Aead.Error) : HpkeRes α :=
  match hpke_error_from_aead e with
  | some h => .err h
  | none => .fatal "no From<aead::Error> arm for UnknownMode"

/-- `Hpke` from `src/lib.rs` lines 175-187: the immutable engine
configuration.  The primitive provider objects (`kem`, `kdf`, `aead`) are
functions of the stored ids in this embedding, so only the ids and the cached
lengths are fields. -/
structure Hpke where
  mode : Mode
  kem_id : Kem.Mode
  kdf_id : Kdf.Mode
  aead_id : Aead.Mode
  nk : Nat
  nn : Nat
  nh : Nat
deriving DecidableEq, Repr

/-- `Hpke::new`, `src/lib.rs` lines 191-207: caches `nk`, `nn` from the AEAD
and `nh` from the KDF. -/
def Hpke.new (mode : Mode) (kem_id : Kem.Mode) (kdf_id : Kdf.Mode)
    (aead_id : Aead.Mode) : Hpke :=
  { mode, kem_id, kdf_id, aead_id,
    nk := aead_id.nk, nn := aead_id.nn, nh := kdf_id.nh }

/-- `Context` from `src/lib.rs` lines 77-83.  `sequence_number` is a `u32` in
the source; it is carried here as a `Nat` kept below `2 ^ 32` by the wrapping
increment. -/
structure Context where
  key : Bytes
  nonce : Bytes
  exporter_secret : Bytes
  sequence_number : Nat
  hpke : Hpke
deriving DecidableEq, Repr

/-- `Context::compute_nonce`, `src/lib.rs` lines 158-163: the sequence number
is encoded as 4 big-endian bytes (`u32::to_be_bytes`), left-padded with zeros
to the nonce length, and XORed with the stored nonce.  (For a nonce shorter
than 4 bytes the source would panic constructing the pad; the registered
AEADs all have `Nn = 12`.) -/
def Context.compute_nonce (c : Context) : Bytes :=
  let seq := be32 c.sequence_number
  let enc_seq := List.replicate (c.nonce.length - seq.length) 0 ++ seq
  xor_bytes enc_seq c.nonce

/-- `Context::increment_seq`, `src/lib.rs` lines 165-167:
`self.sequence_number += 1` on a `u32`, i.e. wrapping addition modulo
`2 ^ 32` (release profile; a debug build would abort on overflow — either
way there is no message-limit error). -/
def Context.increment_seq (c : Context) : Context :=
  { c with sequence_number := (c.sequence_number + 1) % 2 ^ 32 }

/-- `Context::seal`, `src/lib.rs` lines 107-114: AEAD-seal under the computed
nonce, then increment the sequence number.  Returns the result together with
the context after the call (`&mut self` made explicit); on error the context
is returned unchanged. -/
def Context.sealB (c : Context) (aad plain_txt : Bytes) : HpkeRes Bytes × Context :=
  match Aead.sealB c.hpke.aead_id c.key c.compute_nonce aad plain_txt with
  | .ok ctxt => (.ok ctxt, c.increment_seq)
  | .error e => (liftAeadErr e, c)

/-- `Context::open`, `src/lib.rs` lines 129-136: AEAD-open under the computed
nonce; on success increment the sequence number, on error return the error
via `From<aead::Error>` with the context unchanged. -/
def Context.opn (c : Context) (aad cipher_txt : Bytes) : HpkeRes Bytes × Context :=
  match Aead.opn c.hpke.aead_id c.key c.compute_nonce aad cipher_txt with
  | .ok ptxt => (.ok ptxt, c.increment_seq)
  | .error e => (liftAeadErr e, c)

/-- `Hpke::get_ciphersuite`, `src/lib.rs` lines 391-399:
`"HPKE" || kem_id_be16 || kdf_id_be16 || aead_id_be16`. -/
def Hpke.get_ciphersuite (h : Hpke) : Bytes :=
  lblHPKE ++ be16 h.kem_id.toNat ++ be16 h.kdf_id.toNat ++ be16 h.aead_id.toNat

/-- `Context::export`, `src/lib.rs` lines 147-155:
`LabeledExpand(exporter_secret, suite_id, "sec", exporter_context, length)`.
Read-only: takes `&self`. -/
def Context.export (c : Context) (exporter_context : Bytes) (length : Nat) : Bytes :=
  Kdf.labeled_expand c.hpke.kdf_id c.exporter_secret c.hpke.get_ciphersuite
    lblSec exporter_context length

/-- `Hpke::verify_psk_inputs`, `src/lib.rs` lines 375-389: panics (process
abort) on inconsistent or mode-violating PSK inputs; returns nothing on
success.  The three `panic!` messages are the source's. -/
def Hpke.verify_psk_inputs (h : Hpke) (psk psk_id : Bytes) : HpkeRes Unit :=
  let got_psk := !psk.isEmpty
  let got_psk_id := !psk_id.isEmpty
  if (got_psk && !got_psk_id) || (!got_psk && got_psk_id) then
    .fatal "Inconsistent PSK inputs"
  else if got_psk && (h.mode == Mode.base || h.mode == Mode.auth) then
    .fatal "PSK input provided when not needed"
  else if !got_psk && (h.mode == Mode.psk || h.mode == Mode.authPsk) then
    .fatal "Missing required PSK input"
  else .ok ()

/-- `Hpke::get_key_schedule_context`, `src/lib.rs` lines 401-408: both hashes
use the one-byte salt `[0]` (`&[0]` in the source), and the context is
`mode_byte || psk_id_hash || info_hash`. -/
def Hpke.get_key_schedule_context (h : Hpke) (info psk_id suite_id : Bytes) : Bytes :=
  let psk_id_hash := Kdf.labeled_extract h.kdf_id [0] suite_id lblPskIdHash psk_id
  let info_hash := Kdf.labeled_extract h.kdf_id [0] suite_id lblInfoHash info
  [h.mode.toNat] ++ psk_id_hash ++ info_hash

/-- `Hpke::get_secret`, `src/lib.rs` lines 410-414: the two-step derivation
`psk_hash = LabeledExtract("", suite_id, "psk_hash", psk)` then
`LabeledExtract(psk_hash, suite_id, "secret", zz)`. -/
def Hpke.get_secret (h : Hpke) (psk zz suite_id : Bytes) : Bytes :=
  let psk_hash := Kdf.labeled_extract h.kdf_id [] suite_id lblPskHash psk
  Kdf.labeled_extract h.kdf_id psk_hash suite_id lblSecret zz

/-- `Hpke::key_schedule`, `src/lib.rs` lines 451-474: verify the PSK inputs
(panicking on violation), then derive `key`, `nonce` and `exporter_secret`
with labels `"key"`, `"nonce"`, `"exp"` and lengths `nk`, `nn`, `nh`, and
build the Context with sequence number 0. -/
def Hpke.key_schedule (h : Hpke) (zz info psk psk_id : Bytes) : HpkeRes Context :=
  match h.verify_psk_inputs psk psk_id with
  | .fatal m => .fatal m
  | .err e => .err e
  | .ok _ =>
    let suite_id := h.get_ciphersuite
    let key_schedule_context := h.get_key_schedule_context info psk_id suite_id
    let secret := h.get_secret psk zz suite_id
    let key := Kdf.labeled_expand h.kdf_id secret suite_id lblKey key_schedule_context h.nk
    let nonce := Kdf.labeled_expand h.kdf_id secret suite_id lblNonce key_schedule_context h.nn
    let exporter_secret :=
      Kdf.labeled_expand h.kdf_id secret suite_id lblExp key_schedule_context h.nh
    .ok { key, nonce, exporter_secret, sequence_number := 0, hpke := h }

/-- `Hpke::setup_sender`, `src/lib.rs` lines 218-245.  Base/PSK modes call
`encaps`; Auth/AuthPSK modes require `sk_s` (returning `InvalidInput` before
any KEM call when it is missing) and call `auth_encaps`.  The ephemeral
scalar `eph` makes the KEM's internal randomness explicit.  `psk`/`psk_id`
default to empty (`unwrap_or_default`). -/
def Hpke.setup_sender (h : Hpke) (pk_r info : Bytes) (psk psk_id : Option Bytes)
    (sk_s : Option Bytes) (eph : Bytes) : HpkeRes (Bytes × Context) :=
  let step : HpkeRes (Bytes × Bytes) :=
    match h.mode with
    | .base | .psk => .ok (Kem.encaps h.kem_id pk_r eph)
    | .auth | .authPsk =>
      match sk_s with
      | some s => .ok (Kem.auth_encaps h.kem_id pk_r s eph)
      | none => .err .invalidInput
  match step with
  | .err e => .err e
  | .fatal m => .fatal m
  | .ok (zz, enc) =>
    match h.key_schedule zz info (psk.getD []) (psk_id.getD []) with
    | .ok ctx => .ok (enc, ctx)
    | .err e => .err e
    | .fatal m => .fatal m

/-- `Hpke::setup_receiver`, `src/lib.rs` lines 257-282.  Base/PSK modes call
`decaps`; Auth/AuthPSK modes require `pk_s` (returning `InvalidInput` when it
is missing) and call `auth_decaps`. -/
def Hpke.setup_receiver (h : Hpke) (enc sk_r info : Bytes) (psk psk_id : Option Bytes)
    (pk_s : Option Bytes) : HpkeRes Context :=
  let step : HpkeRes Bytes :=
    match h.mode with
    | .base | .psk => .ok (Kem.decaps h.kem_id enc sk_r)
    | .auth | .authPsk =>
      match pk_s with
      | some p => .ok (Kem.auth_decaps h.kem_id enc sk_r p)
      | none => .err .invalidInput
  match step with
  | .err e => .err e
  | .fatal m => .fatal m
  | .ok zz =>
    match h.key_schedule zz info (psk.getD []) (psk_id.getD []) with
    | .ok ctx => .ok ctx
    | .err e => .err e
    | .fatal m => .fatal m

/-- The context a successful `key_schedule` returns, explicitly. -/
def Hpke.key_schedule_ctx (h : Hpke) (zz info psk psk_id : Bytes) : Context :=
  let suite_id := h.get_ciphersuite
  let ksc := h.get_key_schedule_context info psk_id suite_id
  let secret := h.get_secret psk zz suite_id
  { key := Kdf.labeled_expand h.kdf_id secret suite_id lblKey ksc h.nk,
    nonce := Kdf.labeled_expand h.kdf_id secret suite_id lblNonce ksc h.nn,
    exporter_secret := Kdf.labeled_expand h.kdf_id secret suite_id lblExp ksc h.nh,
    sequence_number := 0, hpke := h }

/-- The claim's side condition on the authentication key: Auth and AuthPSK
need `sk_s`, Base and PSK do not. -/
def auth_keys_ok : Mode → Option Bytes → Bool
  | .auth, o => o.isSome
  | .authPsk, o => o.isSome
  | _, _ => true

/-- A demonstration engine: Base mode with the X25519 / HKDF-SHA-256 /
AES-128-GCM suite. -/
def hpkeDemo : Hpke := Hpke.new .base .dhkemX25519 .hkdfSha256 .aesGcm128

/-- A demonstration engine in PSK mode with the X25519 / HKDF-SHA-256 /
AES-128-GCM suite. -/
def hpkeDemoPsk : Hpke := Hpke.new .psk .dhkemX25519 .hkdfSha256 .aesGcm128

/-- A Context of `hpkeDemo` at the final representable u32 sequence number,
with key and nonce of the configured lengths. -/
def ctxAtU32Max : Context :=
  { key := List.replicate 16 1, nonce := List.replicate 12 2,
    exporter_secret := List.replicate 32 3,
    sequence_number := 2 ^ 32 - 1, hpke := hpkeDemo }

/-- A second Context of `hpkeDemo` at the final representable u32 sequence
number (distinct key material). -/
def ctxAtU32MaxB : Context :=
  { key := List.replicate 16 7, nonce := List.replicate 12 8,
    exporter_secret := List.replicate 32 9,
    sequence_number := 2 ^ 32 - 1, hpke := hpkeDemo }

/-- A well-formed Context of `hpkeDemo` at sequence number 5. -/
def ctxSeqFive : Context :=
  { key := List.replicate 16 4, nonce := List.replicate 12 5,
    exporter_secret := List.replicate 32 6,
    sequence_number := 5, hpke := hpkeDemo }

/-- A Context of `hpkeDemo` whose key has the wrong length for its AEAD
(1 byte instead of 16). -/
def ctxBadKey : Context :=
  { key := [42], nonce := List.replicate 12 5,
    exporter_secret := List.replicate 32 6,
    sequence_number := 0, hpke := hpkeDemo }

/-! ## Helper lemmas -/

/-- As HMAC keys, the one-byte salt `[0x00]` and the empty salt are
zero-padded to the same block, so Extract gives identical PRKs. -/
theorem Kdf.extract_zero_salt (m : Kdf.Mode) (ikm : Bytes) :
    Kdf.extract m [0] ikm = Kdf.extract m [] ikm := by
  cases m <;> rfl

/-- `LabeledExtract` with salt `[0x00]` equals `LabeledExtract` with the
empty salt. -/
theorem Kdf.labeled_extract_zero_salt (m : Kdf.Mode) (suite_id label ikm : Bytes) :
    Kdf.labeled_extract m [0] suite_id label ikm
      = Kdf.labeled_extract m [] suite_id label ikm := by
  unfold Kdf.labeled_extract
  exact Kdf.extract_zero_salt m _

theorem Kdf.expand_length (m : Kdf.Mode) (prk info : Bytes) (L : Nat) :
    (Kdf.expand m prk info L).length = L := by
  simp [Kdf.expand]

theorem Kdf.labeled_expand_length (m : Kdf.Mode) (prk suite_id label info : Bytes)
    (L : Nat) : (Kdf.labeled_expand m prk suite_id label info L).length = L := by
  simp [Kdf.labeled_expand, Kdf.expand_length]

theorem Aead.opn_seal (m : Mode) (key nonce aad pt ct : Bytes)
    (h : sealB m key nonce aad pt = .ok ct) :
    opn m key nonce aad ct = .ok pt := by
  unfold sealB at h
  split at h
  · simp at h
  · split at h
    · simp at h
    · rename_i hk hn
      injection h with h
      subst h
      unfold opn
      rw [if_neg hk, if_neg hn]
      simp [List.getLast?_concat, List.dropLast_concat]

theorem Kem.leB_total (a : Bytes) : ∀ b : Bytes, leB a b = true ∨ leB b a = true := by
  induction a with
  | nil => intro b; left; rfl
  | cons x xs ih =>
    intro b
    cases b with
    | nil => right; rfl
    | cons y ys =>
      by_cases hxy : x < y
      · left; simp [leB, hxy]
      · by_cases hyx : y < x
        · right; simp [leB, hyx]
        · have hxy2 : x = y := Nat.le_antisymm (Nat.le_of_not_lt hyx) (Nat.le_of_not_lt hxy)
          subst hxy2
          rcases ih ys with h | h
          · left; simp [leB, h]
          · right; simp [leB, h]

theorem Kem.leB_antisymm (a : Bytes) :
    ∀ b : Bytes, leB a b = true → leB b a = true → a = b := by
  induction a with
  | nil =>
    intro b _ hba
    cases b with
    | nil => rfl
    | cons y ys => simp [leB] at hba
  | cons x xs ih =>
    intro b hab hba
    cases b with
    | nil => simp [leB] at hab
    | cons y ys =>
      by_cases hxy : x < y
      · simp [leB, hxy, Nat.lt_asymm hxy] at hba
      · by_cases hyx : y < x
        · simp [leB, hxy, hyx] at hab
        · have hxy2 : x = y := Nat.le_antisymm (Nat.le_of_not_lt hyx) (Nat.le_of_not_lt hxy)
          subst hxy2
          simp only [leB, if_neg hxy, if_neg hyx] at hab hba
          rw [ih ys hab hba]

theorem Kem.dh_comm (a b : Bytes) : dh a (pkOf b) = dh b (pkOf a) := by
  unfold dh pkOf
  simp only [List.drop_succ_cons, List.drop_zero]
  rcases leB_total a b with h | h
  · by_cases h2 : leB b a = true
    · have : a = b := leB_antisymm a b h h2
      subst this; simp
    · simp [h, h2]
  · by_cases h2 : leB a b = true
    · have : a = b := leB_antisymm a b h2 h
      subst this; simp
    · simp [h, h2]

theorem Kem.decaps_encaps (m : Mode) (sk_r eph : Bytes) :
    decaps m (encaps m (pkOf sk_r) eph).2 sk_r = (encaps m (pkOf sk_r) eph).1 := by
  unfold decaps encaps
  simp only
  rw [dh_comm sk_r eph]

theorem Kem.auth_decaps_encaps (m : Mode) (sk_r sk_s eph : Bytes) :
    auth_decaps m (auth_encaps m (pkOf sk_r) sk_s eph).2 sk_r (pkOf sk_s) =
      (auth_encaps m (pkOf sk_r) sk_s eph).1 := by
  unfold auth_decaps auth_encaps
  simp only
  rw [dh_comm sk_r eph, dh_comm sk_r sk_s]


/-- All registered AEADs have a nonce of at least 4 bytes (in fact 12). -/
theorem Aead.Mode.four_le_nn (m : Aead.Mode) : 4 ≤ m.nn := by
  cases m <;> decide


theorem Hpke.key_schedule_ok (h : Hpke) (zz info psk psk_id : Bytes)
    (hv : h.verify_psk_inputs psk psk_id = .ok ()) :
    h.key_schedule zz info psk psk_id = .ok (h.key_schedule_ctx zz info psk psk_id) := by
  unfold Hpke.key_schedule
  rw [hv]
  rfl

/-- The nonce fed to the AEAD has the length of the stored nonce whenever the
stored nonce is at least 4 bytes long. -/
theorem Context.compute_nonce_length (c : Context) (h4 : 4 ≤ c.nonce.length) :
    c.compute_nonce.length = c.nonce.length := by
  simp only [Context.compute_nonce, xor_bytes, be32, List.length_zipWith,
    List.length_append, List.length_replicate, List.length_cons, List.length_nil]
  omega

/-- Round-trip at the Context level: on a context whose key and nonce have the
configured AEAD lengths, `seal` succeeds and the produced ciphertext is opened
back to the plaintext by `open` on the same state, both calls advancing the
sequence number identically. -/
theorem Context.sealB_opn_round_trip (c : Context) (aad pt : Bytes)
    (hk : c.key.length = c.hpke.aead_id.nk)
    (hn : c.nonce.length = c.hpke.aead_id.nn) :
    ∃ ct, c.sealB aad pt = (.ok ct, c.increment_seq) ∧
          c.opn aad ct = (.ok pt, c.increment_seq) := by
  have h4 : 4 ≤ c.nonce.length := hn ▸ Aead.Mode.four_le_nn c.hpke.aead_id
  have hcn : c.compute_nonce.length = c.hpke.aead_id.nn :=
    (c.compute_nonce_length h4).trans hn
  have hseal : Aead.sealB c.hpke.aead_id c.key c.compute_nonce aad pt
      = .ok (pt ++ [Aead.tagOf c.hpke.aead_id c.key c.compute_nonce aad pt]) := by
    unfold Aead.sealB
    rw [if_neg (by omega), if_neg (by omega)]
  refine ⟨pt ++ [Aead.tagOf c.hpke.aead_id c.key c.compute_nonce aad pt], ?_, ?_⟩
  · unfold Context.sealB
    rw [hseal]
  · unfold Context.opn
    rw [Aead.opn_seal _ _ _ _ _ _ hseal]


theorem Hpke.setup_sender_unauth (mode : Mode) (hm : mode = .base ∨ mode = .psk)
    (kem_id : Kem.Mode) (kdf_id : Kdf.Mode) (aead_id : Aead.Mode)
    (pk_r info : Bytes) (psk psk_id sk_s : Option Bytes) (eph : Bytes) :
    (Hpke.new mode kem_id kdf_id aead_id).setup_sender pk_r info psk psk_id sk_s eph
      = match (Hpke.new mode kem_id kdf_id aead_id).key_schedule
          (Kem.encaps kem_id pk_r eph).1 info (psk.getD []) (psk_id.getD []) with
        | .ok ctx => .ok ((Kem.encaps kem_id pk_r eph).2, ctx)
        | .err e => .err e
        | .fatal m => .fatal m := by
  rcases hm with h | h <;> subst h <;> rfl

theorem Hpke.setup_sender_auth (mode : Mode) (hm : mode = .auth ∨ mode = .authPsk)
    (kem_id : Kem.Mode) (kdf_id : Kdf.Mode) (aead_id : Aead.Mode)
    (pk_r info : Bytes) (psk psk_id : Option Bytes) (s eph : Bytes) :
    (Hpke.new mode kem_id kdf_id aead_id).setup_sender pk_r info psk psk_id (some s) eph
      = match (Hpke.new mode kem_id kdf_id aead_id).key_schedule
          (Kem.auth_encaps kem_id pk_r s eph).1 info (psk.getD []) (psk_id.getD []) with
        | .ok ctx => .ok ((Kem.auth_encaps kem_id pk_r s eph).2, ctx)
        | .err e => .err e
        | .fatal m => .fatal m := by
  rcases hm with h | h <;> subst h <;> rfl

theorem Hpke.setup_receiver_unauth (mode : Mode) (hm : mode = .base ∨ mode = .psk)
    (kem_id : Kem.Mode) (kdf_id : Kdf.Mode) (aead_id : Aead.Mode)
    (enc sk_r info : Bytes) (psk psk_id pk_s : Option Bytes) :
    (Hpke.new mode kem_id kdf_id aead_id).setup_receiver enc sk_r info psk psk_id pk_s
      = match (Hpke.new mode kem_id kdf_id aead_id).key_schedule
          (Kem.decaps kem_id enc sk_r) info (psk.getD []) (psk_id.getD []) with
        | .ok ctx => .ok ctx
        | .err e => .err e
        | .fatal m => .fatal m := by
  rcases hm with h | h <;> subst h <;> rfl

theorem Hpke.setup_receiver_auth (mode : Mode) (hm : mode = .auth ∨ mode = .authPsk)
    (kem_id : Kem.Mode) (kdf_id : Kdf.Mode) (aead_id : Aead.Mode)
    (enc sk_r info : Bytes) (psk psk_id : Option Bytes) (p : Bytes) :
    (Hpke.new mode kem_id kdf_id aead_id).setup_receiver enc sk_r info psk psk_id (some p)
      = match (Hpke.new mode kem_id kdf_id aead_id).key_schedule
          (Kem.auth_decaps kem_id enc sk_r p) info (psk.getD []) (psk_id.getD []) with
        | .ok ctx => .ok ctx
        | .err e => .err e
        | .fatal m => .fatal m := by
  rcases hm with h | h <;> subst h <;> rfl

/-- `verify_psk_inputs` either succeeds or panics; it never returns an
`HPKEError`. -/
theorem Hpke.verify_ok_or_fatal (h : Hpke) (psk psk_id : Bytes) :
    h.verify_psk_inputs psk psk_id = .ok () ∨
    ∃ m, h.verify_psk_inputs psk psk_id = .fatal m := by
  simp only [Hpke.verify_psk_inputs]
  split_ifs <;> simp

/-- A lifted AEAD error is never a success. -/
theorem liftAeadErr_ne_ok {α : Type} (e : Aead.Error) (a : α) :
    liftAeadErr e ≠ .ok a := by
  cases e <;> simp [liftAeadErr, hpke_error_from_aead]

/-- For a value below `2 ^ 32`, the 64-bit big-endian encoding is the 32-bit
one preceded by four zero bytes. -/
theorem be64_eq_zeros_append_be32 (s : Nat) (hs : s < 2 ^ 32) :
    be64 s = [0, 0, 0, 0] ++ be32 s := by
  have h56 : s / 2 ^ 56 = 0 := Nat.div_eq_of_lt (lt_of_lt_of_le hs (by norm_num))
  have h48 : s / 2 ^ 48 = 0 := Nat.div_eq_of_lt (lt_of_lt_of_le hs (by norm_num))
  have h40 : s / 2 ^ 40 = 0 := Nat.div_eq_of_lt (lt_of_lt_of_le hs (by norm_num))
  have h32 : s / 2 ^ 32 = 0 := Nat.div_eq_of_lt hs
  unfold be64 be32
  rw [h56, h48, h40, h32]
  simp

/-! ## Claims -/

/-- C1: for every mode and ciphersuite and all inputs respecting the mode's
PSK and auth constraints, the receiver Context built by `setup_receiver` from
the encapsulation, the matching private key (and, in Auth modes, the sender
public key matching `sk_s`) and the same `info`/`psk`/`psk_id` equals the
sender Context, and on any state with that key and nonce — in particular the
common state at every sequence position, since both sides advance by the same
`increment_seq` — `open` returns exactly the plaintext that `seal` sealed. -/
theorem C1_round_trip
    (mode : Mode) (kem_id : Kem.Mode) (kdf_id : Kdf.Mode) (aead_id : Aead.Mode)
    (sk_r eph info : Bytes) (psk psk_id : Option Bytes) (sk_s : Option Bytes)
    (hpsk : (Hpke.new mode kem_id kdf_id aead_id).verify_psk_inputs
      (psk.getD []) (psk_id.getD []) = .ok ())
    (hauth : auth_keys_ok mode sk_s = true) :
    ∃ enc ctx,
      (Hpke.new mode kem_id kdf_id aead_id).setup_sender (Kem.pkOf sk_r) info
        psk psk_id sk_s eph = .ok (enc, ctx) ∧
      (Hpke.new mode kem_id kdf_id aead_id).setup_receiver enc sk_r info
        psk psk_id (sk_s.map Kem.pkOf) = .ok ctx ∧
      ∀ (c : Context) (aad pt : Bytes),
        c.hpke = ctx.hpke → c.key = ctx.key → c.nonce = ctx.nonce →
        ∃ ct, c.sealB aad pt = (.ok ct, c.increment_seq) ∧
              c.opn aad ct = (.ok pt, c.increment_seq) := by
  have htail : ∀ (zz : Bytes) (c : Context) (aad pt : Bytes),
      c.hpke = ((Hpke.new mode kem_id kdf_id aead_id).key_schedule_ctx zz info
        (psk.getD []) (psk_id.getD [])).hpke →
      c.key = ((Hpke.new mode kem_id kdf_id aead_id).key_schedule_ctx zz info
        (psk.getD []) (psk_id.getD [])).key →
      c.nonce = ((Hpke.new mode kem_id kdf_id aead_id).key_schedule_ctx zz info
        (psk.getD []) (psk_id.getD [])).nonce →
      ∃ ct, c.sealB aad pt = (.ok ct, c.increment_seq) ∧
            c.opn aad ct = (.ok pt, c.increment_seq) := by
    intro zz c aad pt hch hck hcn
    refine c.sealB_opn_round_trip aad pt ?_ ?_ <;>
      simp [hck, hcn, hch, Hpke.key_schedule_ctx, Kdf.labeled_expand_length, Hpke.new]
  by_cases hmode : mode = .auth ∨ mode = .authPsk
  · obtain ⟨s, hs⟩ : ∃ s, sk_s = some s := by
      cases hsk : sk_s with
      | none =>
        exfalso
        rcases hmode with h | h <;> subst h <;> rw [hsk] at hauth <;>
          simp [auth_keys_ok] at hauth
      | some s => exact ⟨s, rfl⟩
    subst hs
    refine ⟨(Kem.auth_encaps kem_id (Kem.pkOf sk_r) s eph).2,
      (Hpke.new mode kem_id kdf_id aead_id).key_schedule_ctx
        (Kem.auth_encaps kem_id (Kem.pkOf sk_r) s eph).1 info
        (psk.getD []) (psk_id.getD []), ?_, ?_, htail _⟩
    · rw [Hpke.setup_sender_auth mode hmode, Hpke.key_schedule_ok _ _ _ _ _ hpsk]
    · simp only [Option.map_some']
      rw [Hpke.setup_receiver_auth mode hmode, Kem.auth_decaps_encaps,
        Hpke.key_schedule_ok _ _ _ _ _ hpsk]
  · have hm2 : mode = .base ∨ mode = .psk := by
      cases mode <;> simp_all
    refine ⟨(Kem.encaps kem_id (Kem.pkOf sk_r) eph).2,
      (Hpke.new mode kem_id kdf_id aead_id).key_schedule_ctx
        (Kem.encaps kem_id (Kem.pkOf sk_r) eph).1 info
        (psk.getD []) (psk_id.getD []), ?_, ?_, htail _⟩
    · rw [Hpke.setup_sender_unauth mode hm2, Hpke.key_schedule_ok _ _ _ _ _ hpsk]
    · rw [Hpke.setup_receiver_unauth mode hm2, Kem.decaps_encaps,
        Hpke.key_schedule_ok _ _ _ _ _ hpsk]

/-- Witness for C1 at the Base mode with the X25519 / HKDF-SHA-256 /
AES-128-GCM suite and concrete keys and inputs. -/
theorem C1_round_trip_witness :
    ∃ enc ctx,
      (Hpke.new .base .dhkemX25519 .hkdfSha256 .aesGcm128).setup_sender
        (Kem.pkOf [1]) [3] none none none [2] = .ok (enc, ctx) ∧
      (Hpke.new .base .dhkemX25519 .hkdfSha256 .aesGcm128).setup_receiver enc [1] [3]
        none none ((none : Option Bytes).map Kem.pkOf) = .ok ctx ∧
      ∀ (c : Context) (aad pt : Bytes),
        c.hpke = ctx.hpke → c.key = ctx.key → c.nonce = ctx.nonce →
        ∃ ct, c.sealB aad pt = (.ok ct, c.increment_seq) ∧
              c.opn aad ct = (.ok pt, c.increment_seq) :=
  C1_round_trip .base .dhkemX25519 .hkdfSha256 .aesGcm128 [1] [2] [3]
    none none none (by decide) (by decide)

/-- C2 counterexample: on a PSK-mode engine with inputs passing PSK
verification (`psk = [1]`, `psk_id = [2]`), the secret the source computes in
`get_secret` differs from the claimed
`LabeledExtract(shared_secret, suite_id, "secret", psk)` at the concrete
shared secret `[9]`. -/
theorem C2_counterexample :
    hpkeDemoPsk.verify_psk_inputs [1] [2] = .ok () ∧
    hpkeDemoPsk.get_secret [1] [9] hpkeDemoPsk.get_ciphersuite ≠
      Kdf.labeled_extract .hkdfSha256 [9] hpkeDemoPsk.get_ciphersuite
        lblSecret [1] := by
  constructor
  · decide
  · decide

/-- C2 amended: in the key schedule the secret PRK is computed in two steps,
`psk_hash = LabeledExtract("", suite_id, "psk_hash", psk)` followed by
`secret = LabeledExtract(psk_hash, suite_id, "secret", shared_secret)` — the
Extract salt is the intermediate `psk_hash`, not the shared secret, and the
input key material is the shared secret, not the psk.  The context key is
derived from that secret. -/
theorem C2_amended_secret (h : Hpke) (zz info psk psk_id : Bytes)
    (hv : h.verify_psk_inputs psk psk_id = .ok ()) :
    ∃ ctx, h.key_schedule zz info psk psk_id = .ok ctx ∧
      ctx.key = Kdf.labeled_expand h.kdf_id
        (Kdf.labeled_extract h.kdf_id
          (Kdf.labeled_extract h.kdf_id [] h.get_ciphersuite lblPskHash psk)
          h.get_ciphersuite lblSecret zz)
        h.get_ciphersuite lblKey
        (h.get_key_schedule_context info psk_id h.get_ciphersuite) h.nk :=
  ⟨_, h.key_schedule_ok zz info psk psk_id hv, rfl⟩

/-- Witness for the amended C2 at a concrete PSK-mode invocation. -/
theorem C2_amended_secret_witness :
    ∃ ctx, hpkeDemoPsk.key_schedule [9] [3] [1] [2] = .ok ctx ∧
      ctx.key = Kdf.labeled_expand hpkeDemoPsk.kdf_id
        (Kdf.labeled_extract hpkeDemoPsk.kdf_id
          (Kdf.labeled_extract hpkeDemoPsk.kdf_id []
            hpkeDemoPsk.get_ciphersuite lblPskHash [1])
          hpkeDemoPsk.get_ciphersuite lblSecret [9])
        hpkeDemoPsk.get_ciphersuite lblKey
        (hpkeDemoPsk.get_key_schedule_context [3] [2]
          hpkeDemoPsk.get_ciphersuite) hpkeDemoPsk.nk :=
  C2_amended_secret hpkeDemoPsk [9] [3] [1] [2] (by decide)

set_option maxRecDepth 16384 in
/-- C3 counterexample: at a concrete Base-mode invocation the per-context IV
is not derived by LabeledExpand with the ASCII label `"base_nonce"`: the
source derives it with label `"nonce"`, and the two Expand info strings
differ.  (The claim's empty-salt part is not refuted: the source's `&[0]`
salt is the same HMAC key as the empty salt.) -/
theorem C3_counterexample :
    hpkeDemo.key_schedule [9] [5] [] []
      = .ok (hpkeDemo.key_schedule_ctx [9] [5] [] []) ∧
    (hpkeDemo.key_schedule_ctx [9] [5] [] []).nonce ≠
      Kdf.labeled_expand .hkdfSha256
        (hpkeDemo.get_secret [] [9] hpkeDemo.get_ciphersuite)
        hpkeDemo.get_ciphersuite lblBaseNonce
        (hpkeDemo.get_key_schedule_context [5] [] hpkeDemo.get_ciphersuite)
        12 := by
  refine ⟨by decide, by decide⟩

/-- C3 amended: `psk_id_hash` and `info_hash` are computed by LabeledExtract
with the one-byte salt `&[0]`, which as an HMAC key is identical to the
claimed empty salt (HMAC zero-pads short keys), so the extracts coincide with
the empty-salt form; the per-context IV, however, is derived by LabeledExpand
with the ASCII label `"nonce"`, not `"base_nonce"`, with length `Nn` — while
the key does use label `"key"` with length `Nk` and the exporter secret label
`"exp"` with length `Nh`. -/
theorem C3_amended_labels (h : Hpke) (zz info psk psk_id : Bytes)
    (hv : h.verify_psk_inputs psk psk_id = .ok ()) :
    ∃ ctx, h.key_schedule zz info psk psk_id = .ok ctx ∧
      h.get_key_schedule_context info psk_id h.get_ciphersuite
        = [h.mode.toNat]
          ++ Kdf.labeled_extract h.kdf_id [] h.get_ciphersuite lblPskIdHash psk_id
          ++ Kdf.labeled_extract h.kdf_id [] h.get_ciphersuite lblInfoHash info ∧
      ctx.nonce = Kdf.labeled_expand h.kdf_id
        (h.get_secret psk zz h.get_ciphersuite) h.get_ciphersuite lblNonce
        (h.get_key_schedule_context info psk_id h.get_ciphersuite) h.nn ∧
      ctx.key = Kdf.labeled_expand h.kdf_id
        (h.get_secret psk zz h.get_ciphersuite) h.get_ciphersuite lblKey
        (h.get_key_schedule_context info psk_id h.get_ciphersuite) h.nk ∧
      ctx.exporter_secret = Kdf.labeled_expand h.kdf_id
        (h.get_secret psk zz h.get_ciphersuite) h.get_ciphersuite lblExp
        (h.get_key_schedule_context info psk_id h.get_ciphersuite) h.nh :=
  ⟨_, h.key_schedule_ok zz info psk psk_id hv,
    by simp only [Hpke.get_key_schedule_context, Kdf.labeled_extract_zero_salt],
    rfl, rfl, rfl⟩

/-- Witness for the amended C3 at a concrete Base-mode invocation. -/
theorem C3_amended_labels_witness :
    ∃ ctx, hpkeDemo.key_schedule [9] [5] [] [] = .ok ctx ∧
      hpkeDemo.get_key_schedule_context [5] [] hpkeDemo.get_ciphersuite
        = [Mode.base.toNat]
          ++ Kdf.labeled_extract hpkeDemo.kdf_id [] hpkeDemo.get_ciphersuite
              lblPskIdHash []
          ++ Kdf.labeled_extract hpkeDemo.kdf_id [] hpkeDemo.get_ciphersuite
              lblInfoHash [5] ∧
      ctx.nonce = Kdf.labeled_expand hpkeDemo.kdf_id
        (hpkeDemo.get_secret [] [9] hpkeDemo.get_ciphersuite)
        hpkeDemo.get_ciphersuite lblNonce
        (hpkeDemo.get_key_schedule_context [5] [] hpkeDemo.get_ciphersuite)
        hpkeDemo.nn ∧
      ctx.key = Kdf.labeled_expand hpkeDemo.kdf_id
        (hpkeDemo.get_secret [] [9] hpkeDemo.get_ciphersuite)
        hpkeDemo.get_ciphersuite lblKey
        (hpkeDemo.get_key_schedule_context [5] [] hpkeDemo.get_ciphersuite)
        hpkeDemo.nk ∧
      ctx.exporter_secret = Kdf.labeled_expand hpkeDemo.kdf_id
        (hpkeDemo.get_secret [] [9] hpkeDemo.get_ciphersuite)
        hpkeDemo.get_ciphersuite lblExp
        (hpkeDemo.get_key_schedule_context [5] [] hpkeDemo.get_ciphersuite)
        hpkeDemo.nh :=
  C3_amended_labels hpkeDemo [9] [5] [] [] (by decide)

/-- C4 counterexample: a Base-mode key schedule called with a non-empty `psk`
and empty `psk_id` panics with "Inconsistent PSK inputs" instead of returning
`InvalidInput`, and the abort propagates through `setup_sender`. -/
theorem C4_counterexample :
    hpkeDemo.key_schedule [9] [] [1] [] = .fatal "Inconsistent PSK inputs" ∧
    hpkeDemo.key_schedule [9] [] [1] [] ≠ .err .invalidInput ∧
    hpkeDemo.setup_sender (Kem.pkOf [1]) [] (some [1]) none none [2]
      = .fatal "Inconsistent PSK inputs" := by
  refine ⟨rfl, by decide, rfl⟩

/-- C4 amended: for every setup / key-schedule invocation whose PSK inputs
violate the mode constraints (exactly one of psk and psk_id empty, a
non-empty PSK in Base or Auth mode, or an empty PSK in PSK or AuthPSK mode),
the source panics — aborting the process with the corresponding message — and
neither returns an `InvalidInput` error nor produces a Context. -/
theorem C4_amended_psk_abort (h : Hpke) (zz info psk psk_id : Bytes)
    (hbad : h.verify_psk_inputs psk psk_id ≠ .ok ()) :
    (∃ m, h.key_schedule zz info psk psk_id = .fatal m) ∧
    (∀ e, h.key_schedule zz info psk psk_id ≠ .err e) ∧
    (∀ ctx, h.key_schedule zz info psk psk_id ≠ .ok ctx) := by
  rcases h.verify_ok_or_fatal psk psk_id with hv | ⟨m, hv⟩
  · exact absurd hv hbad
  · unfold Hpke.key_schedule
    rw [hv]
    exact ⟨⟨m, rfl⟩, fun e => by simp, fun ctx => by simp⟩

/-- Witness for the amended C4 at a concrete inconsistent invocation. -/
theorem C4_amended_psk_abort_witness :
    (∃ m, hpkeDemo.key_schedule [9] [] [1] [] = .fatal m) ∧
    (∀ e, hpkeDemo.key_schedule [9] [] [1] [] ≠ .err e) ∧
    (∀ ctx, hpkeDemo.key_schedule [9] [] [1] [] ≠ .ok ctx) :=
  C4_amended_psk_abort hpkeDemo [9] [] [1] [] (by decide)

/-- C5 counterexample: on a Context at the last representable u32 sequence
number — which is far below the claimed bound `2 ^ (8 * Nn) - 1` — `seal`
still succeeds (it does not fail with any message-limit error), and the new
sequence number is 0 rather than the successor, so the counter is not
strictly monotonically increasing. -/
theorem C5_counterexample :
    ctxAtU32Max.sequence_number = 2 ^ 32 - 1 ∧
    ctxAtU32Max.sequence_number + 1 < 2 ^ (8 * 12) ∧
    ((ctxAtU32Max.sealB [] []).1).isOk = true ∧
    (ctxAtU32Max.sealB [] []).2.sequence_number = 0 ∧
    (ctxAtU32Max.sealB [] []).2.sequence_number ≠ ctxAtU32Max.sequence_number + 1 := by
  refine ⟨rfl, by decide, by decide, by decide, by decide⟩

/-- C5 amended: a Context starts at sequence 0 and each successful
`seal`/`open` advances the u32 counter by 1 modulo `2 ^ 32`; there is no
Exhausted state and no message-limit check — `HPKEError` has only the three
variants `OpenError`, `InvalidConfig`, `InvalidInput` — so at `2 ^ 32 - 1` a
successful operation wraps the counter to 0 and nonces repeat. -/
theorem C5_amended_sequence :
    (∀ (hp : Hpke) (zz info psk psk_id : Bytes) (ctx : Context),
        hp.key_schedule zz info psk psk_id = .ok ctx → ctx.sequence_number = 0) ∧
    (∀ (c : Context) (aad pt ct : Bytes) (c2 : Context),
        c.sealB aad pt = (.ok ct, c2) →
        c2.sequence_number = (c.sequence_number + 1) % 2 ^ 32) ∧
    (∀ (c : Context) (aad ct pt : Bytes) (c2 : Context),
        c.opn aad ct = (.ok pt, c2) →
        c2.sequence_number = (c.sequence_number + 1) % 2 ^ 32) ∧
    (∀ e : HPKEError, e = .openError ∨ e = .invalidConfig ∨ e = .invalidInput) := by
  refine ⟨?_, ?_, ?_, ?_⟩
  · intro hp zz info psk psk_id ctx hk
    unfold Hpke.key_schedule at hk
    split at hk
    · exact absurd hk (by simp)
    · exact absurd hk (by simp)
    · injection hk with hk
      subst hk
      rfl
  · intro c aad pt ct c2 hs
    unfold Context.sealB at hs
    split at hs
    · rw [Prod.mk.injEq] at hs
      rw [← hs.2]
      rfl
    · rw [Prod.mk.injEq] at hs
      exact absurd hs.1 (liftAeadErr_ne_ok _ _)
  · intro c aad ct pt c2 hs
    unfold Context.opn at hs
    split at hs
    · rw [Prod.mk.injEq] at hs
      rw [← hs.2]
      rfl
    · rw [Prod.mk.injEq] at hs
      exact absurd hs.1 (liftAeadErr_ne_ok _ _)
  · intro e
    cases e
    · exact Or.inl rfl
    · exact Or.inr (Or.inl rfl)
    · exact Or.inr (Or.inr rfl)

set_option maxRecDepth 32768 in
/-- Witness for the amended C5: a concrete derived Context starts at 0 and a
concrete `seal` advances the counter by 1 modulo `2 ^ 32`. -/
theorem C5_amended_sequence_witness :
    (hpkeDemo.key_schedule_ctx [9] [3] [] []).sequence_number = 0 ∧
    (ctxSeqFive.sealB [] [6]).2.sequence_number
      = (ctxSeqFive.sequence_number + 1) % 2 ^ 32 :=
  ⟨C5_amended_sequence.1 hpkeDemo [9] [3] [] []
      (hpkeDemo.key_schedule_ctx [9] [3] [] []) (by decide),
   C5_amended_sequence.2.1 ctxSeqFive [] [6]
      ([6] ++ [Aead.tagOf .aesGcm128 ctxSeqFive.key ctxSeqFive.compute_nonce [] [6]])
      ctxSeqFive.increment_seq (by decide)⟩

/-- C6: whenever the AEAD layer reports an authentication failure
(`OpenError`), `Context::open` returns `OpenError` to the caller and the
Context is returned entirely unchanged — in particular the sequence number is
not incremented and key, nonce and exporter secret are untouched. -/
theorem C6_open_failure (c : Context) (aad ct : Bytes)
    (hfail : Aead.opn c.hpke.aead_id c.key c.compute_nonce aad ct
      = .error .openError) :
    c.opn aad ct = (.err .openError, c) := by
  unfold Context.opn
  rw [hfail]
  rfl

/-- Witness for C6: a concrete open of an unauthentic (empty) ciphertext. -/
theorem C6_open_failure_witness :
    ctxSeqFive.opn [] [] = (.err .openError, ctxSeqFive) :=
  C6_open_failure ctxSeqFive [] [] (by rfl)

/-- C7 counterexample: the sequence counter is not an unsigned 64-bit
integer: at `2 ^ 32 - 1` a successful `seal` wraps it to 0, whereas a 64-bit
counter would hold `2 ^ 32`. -/
theorem C7_counterexample :
    ctxAtU32MaxB.sequence_number = 2 ^ 32 - 1 ∧
    ((ctxAtU32MaxB.sealB [] []).1).isOk = true ∧
    (ctxAtU32MaxB.sealB [] []).2.sequence_number = 0 ∧
    (ctxAtU32MaxB.sealB [] []).2.sequence_number ≠ 2 ^ 32 := by
  refine ⟨rfl, by decide, by decide, by decide⟩

/-- C7 amended: the counter is an unsigned 32-bit integer (incremented modulo
`2 ^ 32`) and the nonce is `nonce_base XOR` the 32-bit big-endian encoding of
the sequence number left-padded to `Nn` bytes; for every representable
sequence value this coincides with the claimed 64-bit encoding whenever
`Nn ≥ 8` (all registered AEADs have `Nn = 12`). -/
theorem C7_amended_nonce (c : Context) (hlt : c.sequence_number < 2 ^ 32)
    (h8 : 8 ≤ c.nonce.length) :
    c.compute_nonce = xor_bytes
      (List.replicate (c.nonce.length - 4) 0 ++ be32 c.sequence_number) c.nonce ∧
    c.compute_nonce = xor_bytes
      (List.replicate (c.nonce.length - 8) 0 ++ be64 c.sequence_number) c.nonce ∧
    c.increment_seq.sequence_number = (c.sequence_number + 1) % 2 ^ 32 := by
  refine ⟨rfl, ?_, rfl⟩
  rw [be64_eq_zeros_append_be32 _ hlt]
  have hpad : List.replicate (c.nonce.length - 8) (0 : Nat)
        ++ ([0, 0, 0, 0] ++ be32 c.sequence_number)
      = List.replicate (c.nonce.length - 4) (0 : Nat) ++ be32 c.sequence_number := by
    rw [← List.append_assoc]
    have h4 : ([0, 0, 0, 0] : Bytes) = List.replicate 4 0 := rfl
    rw [h4, ← List.replicate_add]
    have hlen : c.nonce.length - 8 + 4 = c.nonce.length - 4 := by omega
    rw [hlen]
  rw [hpad]
  rfl

/-- Witness for the amended C7 at a concrete well-formed Context. -/
theorem C7_amended_nonce_witness :
    ctxSeqFive.compute_nonce = xor_bytes
      (List.replicate (ctxSeqFive.nonce.length - 4) 0
        ++ be32 ctxSeqFive.sequence_number) ctxSeqFive.nonce ∧
    ctxSeqFive.compute_nonce = xor_bytes
      (List.replicate (ctxSeqFive.nonce.length - 8) 0
        ++ be64 ctxSeqFive.sequence_number) ctxSeqFive.nonce ∧
    ctxSeqFive.increment_seq.sequence_number
      = (ctxSeqFive.sequence_number + 1) % 2 ^ 32 :=
  C7_amended_nonce ctxSeqFive (by decide) (by decide)

/-- C8: on an Auth or AuthPSK engine, `setup_sender` without `sk_s` and
`setup_receiver` without `pk_s` return `InvalidInput` (the source returns
from the match arm before any KEM call); on a Base or PSK engine the result
is entirely independent of the `sk_s` / `pk_s` arguments. -/
theorem C8_auth_requirement (mode : Mode) (kem_id : Kem.Mode) (kdf_id : Kdf.Mode)
    (aead_id : Aead.Mode) (pk_r info enc sk_r eph : Bytes)
    (psk psk_id : Option Bytes) :
    ((mode = .auth ∨ mode = .authPsk) →
      (Hpke.new mode kem_id kdf_id aead_id).setup_sender pk_r info psk psk_id
        none eph = .err .invalidInput ∧
      (Hpke.new mode kem_id kdf_id aead_id).setup_receiver enc sk_r info psk
        psk_id none = .err .invalidInput) ∧
    ((mode = .base ∨ mode = .psk) →
      (∀ sk_s sk_s2 : Option Bytes,
        (Hpke.new mode kem_id kdf_id aead_id).setup_sender pk_r info psk psk_id
          sk_s eph
        = (Hpke.new mode kem_id kdf_id aead_id).setup_sender pk_r info psk
            psk_id sk_s2 eph) ∧
      (∀ pk_s pk_s2 : Option Bytes,
        (Hpke.new mode kem_id kdf_id aead_id).setup_receiver enc sk_r info psk
          psk_id pk_s
        = (Hpke.new mode kem_id kdf_id aead_id).setup_receiver enc sk_r info
            psk psk_id pk_s2)) := by
  constructor
  · rintro (rfl | rfl) <;> exact ⟨rfl, rfl⟩
  · rintro (rfl | rfl) <;> exact ⟨fun _ _ => rfl, fun _ _ => rfl⟩

/-- Witness for C8 on a concrete Auth engine. -/
theorem C8_auth_requirement_witness :
    (Hpke.new .auth .dhkemX25519 .hkdfSha256 .aesGcm128).setup_sender [4, 1] []
      none none none [2] = .err .invalidInput ∧
    (Hpke.new .auth .dhkemX25519 .hkdfSha256 .aesGcm128).setup_receiver [4, 2]
      [1] [] none none none = .err .invalidInput :=
  (C8_auth_requirement .auth .dhkemX25519 .hkdfSha256 .aesGcm128 [4, 1] []
    [4, 2] [1] [2] none none).1 (Or.inl rfl)

/-- C9 counterexample: the AEAD codepoint 0xFFFF is not a recognized
configuration — `TryFrom<u16>` rejects it with `UnknownMode`, so no engine
and hence no export-only Context behavior exists for it. -/
theorem C9_counterexample :
    Aead.Mode.tryFrom 0xFFFF = .error .unknownMode := by rfl

/-- C9 amended: the source's AEAD registry has no export-only entry:
`TryFrom<u16>` accepts exactly the codepoints 0x0001-0x0003 and rejects every
other value — including 0xFFFF — with `UnknownMode`. -/
theorem C9_amended_registry (x : Nat) (h1 : x ≠ 1) (h2 : x ≠ 2) (h3 : x ≠ 3) :
    Aead.Mode.tryFrom x = .error .unknownMode ∧
    Aead.Mode.tryFrom 1 = .ok .aesGcm128 ∧
    Aead.Mode.tryFrom 2 = .ok .aesGcm256 ∧
    Aead.Mode.tryFrom 3 = .ok .chaCha20Poly1305 := by
  unfold Aead.Mode.tryFrom
  simp [h1, h2, h3]

/-- Witness for the amended C9 at the claimed export-only codepoint. -/
theorem C9_amended_registry_witness :
    Aead.Mode.tryFrom 0xFFFF = .error .unknownMode ∧
    Aead.Mode.tryFrom 1 = .ok .aesGcm128 ∧
    Aead.Mode.tryFrom 2 = .ok .aesGcm256 ∧
    Aead.Mode.tryFrom 3 = .ok .chaCha20Poly1305 :=
  C9_amended_registry 0xFFFF (by decide) (by decide) (by decide)

/-- C10: `From<aead::Error>` maps the AEAD errors crosswise — `OpenError` to
`OpenError`, `InvalidNonce` to `InvalidConfig`, and `InvalidConfig` to
`InvalidInput` — and `seal`/`open` surface the mapped error to the caller
with the Context unchanged. -/
theorem C10_error_mapping :
    hpke_error_from_aead .openError = some .openError ∧
    hpke_error_from_aead .invalidNonce = some .invalidConfig ∧
    hpke_error_from_aead .invalidConfig = some .invalidInput ∧
    (∀ (c : Context) (aad ct : Bytes) (e : Aead.Error) (he : HPKEError),
      Aead.opn c.hpke.aead_id c.key c.compute_nonce aad ct = .error e →
      hpke_error_from_aead e = some he →
      c.opn aad ct = (.err he, c)) ∧
    (∀ (c : Context) (aad pt : Bytes) (e : Aead.Error) (he : HPKEError),
      Aead.sealB c.hpke.aead_id c.key c.compute_nonce aad pt = .error e →
      hpke_error_from_aead e = some he →
      c.sealB aad pt = (.err he, c)) := by
  refine ⟨rfl, rfl, rfl, ?_, ?_⟩
  · intro c aad ct e he hae hmap
    unfold Context.opn
    rw [hae]
    show (liftAeadErr e, c) = (.err he, c)
    unfold liftAeadErr
    rw [hmap]
  · intro c aad pt e he hae hmap
    unfold Context.sealB
    rw [hae]
    show (liftAeadErr e, c) = (.err he, c)
    unfold liftAeadErr
    rw [hmap]

/-- Witness for C10: a concrete seal on a Context whose key has the wrong
length surfaces the AEAD `InvalidConfig` as HPKE `InvalidInput`. -/
theorem C10_error_mapping_witness :
    ctxBadKey.sealB [] [1] = (.err .invalidInput, ctxBadKey) ∧
    hpke_error_from_aead .invalidConfig = some .invalidInput :=
  ⟨C10_error_mapping.2.2.2.2 ctxBadKey [] [1] .invalidConfig .invalidInput
      (by rfl) (by rfl),
   C10_error_mapping.2.2.1⟩

end HpkeRs
